import Mathlib

/-!
Block event publishing (package `custom`, directory `core/custom`): a shallow
embedding.

The package holds two writers, `RedisDB` (`redis_db.go`) and `WriteStream`
(`write_stream.go`).  Each turns a block, its receipts and a signer into one
record (`outStruct`), encodes it with `json.Marshal` and hands the bytes to its
transport; `RedisDB.WriteCode` appends contract code to a second stream.

The embedding keeps the control flow of the Go functions.  What the functions
do to the outside world (log lines, `XAdd`, `Publish`, the process exit of
`log.Crit`) is recorded in a trace, see `Proc`.
-/

namespace Custom

/-! ## Values of the collaborating packages -/

/-- One `byte`. -/
abbrev Byte := Fin 256

/-- A Go `error` value that is not nil, given by its message. -/
abbrev GoError := String

/-- A Go slice: `none` is the nil slice, `some xs` a slice that was allocated. -/
abbrev GoSlice (α : Type) := Option (List α)

/-- Go `len` on a slice; the nil slice has length zero. -/
def GoSlice.len {α : Type} : GoSlice α → Nat
  | none => 0
  | some xs => xs.length

/-- The elements of a slice, in order; none for the nil slice. -/
def GoSlice.toList {α : Type} : GoSlice α → List α
  | none => []
  | some xs => xs

/-- Value of `common.Hash`, a `[32]byte`. -/
structure Hash where
  bytes : List Byte
  deriving DecidableEq

/-- Value of `common.Address`, a `[20]byte`. -/
structure Address where
  bytes : List Byte
  deriving DecidableEq

/-- Value of `types.Bloom`, a `[256]byte`. -/
structure Bloom where
  bytes : List Byte
  deriving DecidableEq

/-- Value of `types.BlockNonce`, a `[8]byte`. -/
structure BlockNonce where
  bytes : List Byte
  deriving DecidableEq

/-- Value of `common.StorageSize`: a number of bytes. -/
abbrev StorageSize := Nat

/-- The hash function behind `Address.Hex` (`sha3.NewLegacyKeccak256`), which
this development does not compute: it is a parameter of every definition that
needs it. -/
abbrev Keccak := List Byte → List Byte

/-- Modelled from the spec: one digit of `hex.Encode` (package `encoding/hex`),
the lower-case hexadecimal digit of a value below sixteen. -/
def hexDigit (n : Nat) : Char :=
  if n < 10 then Char.ofNat (48 + n) else Char.ofNat (87 + n)

/-- Modelled from the spec: `hex.Encode`, two lower-case digits per byte, the
high nibble first. -/
def hexEncode : List Byte → List Char
  | [] => []
  | b :: bs => hexDigit (b.val / 16) :: hexDigit (b.val % 16) :: hexEncode bs

/-- Modelled from the spec: `Hash.Hex` of package `common` (not part of the
two files modelled here), the hex string form of a hash: `0x` followed by the
hex digits of its bytes (`hexutil.Encode`). -/
def Hash.Hex (h : Hash) : String :=
  String.mk ('0' :: 'x' :: hexEncode h.bytes)

/-- Modelled from the spec: `Hash.String` of package `common`, which is `Hex`. -/
def Hash.String (h : Hash) : String := h.Hex

/-- Modelled from the spec: `Address.hex` of package `common`, the `0x`
prefix followed by the lower-case hex digits of the address. -/
def Address.hex (a : Address) : List Char :=
  '0' :: 'x' :: hexEncode a.bytes

/-- Modelled from the spec: the loop body of `Address.checksumHex` at position
`i` of the buffer `buf` (positions 0 and 1 hold the prefix): a letter digit is
put in upper case when the matching nibble of the keccak hash of the digits is
above seven. -/
def checksumChar (hash : List Byte) (i : Nat) (c : Char) : Char :=
  if i < 2 then c
  else
    let hashByte := (hash.getD ((i - 2) / 2) 0).val
    let nibble := if i % 2 = 0 then hashByte / 16 else hashByte % 16
    if c.toNat > 57 ∧ nibble > 7 then Char.ofNat (c.toNat - 32) else c

/-- Modelled from the spec: `Address.checksumHex` of package `common`, the
checksummed (mixed-case) hex form of an address. -/
def Address.checksumHex (keccak : Keccak) (a : Address) : List Char :=
  let buf := a.hex
  let hash := keccak ((buf.drop 2).map fun c => Fin.ofNat c.toNat)
  buf.enum.map fun p => checksumChar hash p.1 p.2

/-- Modelled from the spec: `Address.Hex` of package `common`, the checksummed
hex string of an address. -/
def Address.Hex (keccak : Keccak) (a : Address) : String :=
  String.mk (a.checksumHex keccak)

/-- Modelled from the spec: `Address.String` of package `common`, which is
`Hex`. -/
def Address.String (keccak : Keccak) (a : Address) : String := a.Hex keccak

/-- Value of `types.Header`, the block header; `BaseFee` is nil before the fee
market. -/
structure Header where
  ParentHash : Hash
  UncleHash : Hash
  Coinbase : Address
  Root : Hash
  TxHash : Hash
  ReceiptHash : Hash
  Bloom : Bloom
  Difficulty : Int
  Number : Int
  GasLimit : Nat
  GasUsed : Nat
  Time : Nat
  Extra : List Byte
  MixDigest : Hash
  Nonce : BlockNonce
  BaseFee : Option Int
  deriving DecidableEq

/-- Value of `types.Transaction`, given by what its accessors return (`Typ` is the
accessor `Type`); `To` is nil for a contract creation. -/
structure Transaction where
  Typ : Nat
  Nonce : Nat
  Gas : Nat
  GasPrice : Int
  GasFeeCap : Int
  Value : Int
  Hash : Hash
  Data : List Byte
  Size : StorageSize
  To : Option Address
  deriving DecidableEq

/-- Value of `types.Receipt`; the writers never look inside one. -/
structure Receipt where
  Typ : Nat
  PostState : List Byte
  Status : Nat
  CumulativeGasUsed : Nat
  Bloom : Bloom
  TxHash : Hash
  ContractAddress : Address
  GasUsed : Nat
  BlockHash : Hash
  BlockNumber : Int
  TransactionIndex : Nat
  deriving DecidableEq

/-- Value of `types.Block`: its header, its transactions, and the hash and
size that `Hash()` and `Size()` report. -/
structure Block where
  header : Header
  transactions : List Transaction
  hash : Hash
  size : StorageSize
  deriving DecidableEq

/-- Modelled from the spec: accessor `Block.BaseFee` of package `types`. -/
def Block.BaseFee (b : Block) : Option Int := b.header.BaseFee
/-- Modelled from the spec: accessor `Block.Bloom` of package `types`. -/
def Block.Bloom (b : Block) : Custom.Bloom := b.header.Bloom
/-- Modelled from the spec: accessor `Block.Coinbase` of package `types`. -/
def Block.Coinbase (b : Block) : Address := b.header.Coinbase
/-- Modelled from the spec: accessor `Block.Difficulty` of package `types`. -/
def Block.Difficulty (b : Block) : Int := b.header.Difficulty
/-- Modelled from the spec: accessor `Block.Extra` of package `types`. -/
def Block.Extra (b : Block) : List Byte := b.header.Extra
/-- Modelled from the spec: accessor `Block.GasLimit` of package `types`. -/
def Block.GasLimit (b : Block) : Nat := b.header.GasLimit
/-- Modelled from the spec: accessor `Block.GasUsed` of package `types`. -/
def Block.GasUsed (b : Block) : Nat := b.header.GasUsed
/-- Modelled from the spec: accessor `Block.Hash` of package `types`. -/
def Block.Hash (b : Block) : Custom.Hash := b.hash
/-- Modelled from the spec: accessor `Block.Header` of package `types`, a copy
of the header. -/
def Block.Header (b : Block) : Custom.Header := b.header
/-- Modelled from the spec: accessor `Block.MixDigest` of package `types`. -/
def Block.MixDigest (b : Block) : Custom.Hash := b.header.MixDigest
/-- Modelled from the spec: accessor `Block.Number` of package `types`. -/
def Block.Number (b : Block) : Int := b.header.Number
/-- Modelled from the spec: accessor `Block.ParentHash` of package `types`. -/
def Block.ParentHash (b : Block) : Custom.Hash := b.header.ParentHash
/-- Modelled from the spec: accessor `Block.ReceiptHash` of package `types`. -/
def Block.ReceiptHash (b : Block) : Custom.Hash := b.header.ReceiptHash
/-- Modelled from the spec: accessor `Block.Root` of package `types`. -/
def Block.Root (b : Block) : Custom.Hash := b.header.Root
/-- Modelled from the spec: accessor `Block.Size` of package `types`. -/
def Block.Size (b : Block) : StorageSize := b.size
/-- Modelled from the spec: accessor `Block.Time` of package `types`, the
Unix time of the header, a `uint64`. -/
def Block.Time (b : Block) : Nat := b.header.Time
/-- Modelled from the spec: accessor `Block.Transactions` of package `types`. -/
def Block.Transactions (b : Block) : List Transaction := b.transactions

/-- A `types.Signer`, as far as the writers use it: its `Sender` method gives
the address that signed a transaction, or an error. -/
structure Signer where
  Sender : Transaction → Except GoError Address

/-! ## Time (Go package `time`) -/

/-- A `*time.Location`, as far as it matters here: `time.UTC`, or `time.Local`,
the zone of the host. -/
inductive Location where
  | UTC
  | Local
  deriving DecidableEq

/-- Value of `time.Time`: seconds and nanoseconds since the Unix epoch, and
the location in which the instant is displayed. -/
structure Time where
  sec : Int
  nsec : Nat
  loc : Location
  deriving DecidableEq

/-- The Go conversion `int64(x)` of a `uint64`: values from `2^63` on wrap to
negative numbers. -/
def int64 (x : Nat) : Int :=
  if x % 2 ^ 64 < 2 ^ 63 then ((x % 2 ^ 64 : Nat) : Int)
  else ((x % 2 ^ 64 : Nat) : Int) - 2 ^ 64

/-- Go `time.Unix(sec, nsec)` for `0 ≤ nsec < 1e9`: "Unix returns the local
Time corresponding to the given Unix time"; the location is `Local`. -/
def time.Unix (sec : Int) (nsec : Nat) : Time :=
  { sec := sec, nsec := nsec, loc := Location.Local }

/-- Go `Time.UTC()`: the same instant with the location set to UTC.  Neither
writer calls it. -/
def Time.UTC (t : Time) : Time := { t with loc := Location.UTC }

/-- Seconds east of UTC that a location stands for on a host whose zone is
`hostOffset` seconds east of UTC. -/
def Location.offset (hostOffset : Int) : Location → Int
  | Location.UTC => 0
  | Location.Local => hostOffset

/-- The wall-clock reading of a `time.Time` in its own location, in seconds
since 1970-01-01 00:00:00 of that location; this is what the calendar fields
and the RFC 3339 text of the value are taken from. -/
def Time.wallSeconds (hostOffset : Int) (t : Time) : Int :=
  t.sec + t.loc.offset hostOffset

/-! ## The records of `redis_db.go` and `write_stream.go` -/

/-- The struct `TxOut`, declared with the same fields in both files.  A
`*big.Int` field is `none` when the pointer is nil; `Typ` is the field `Type`. -/
structure TxOut where
  From : String
  To : String
  Typ : Nat
  Nonce : Nat
  Gas : Nat
  GasPrice : Option Int
  GasFeeCap : Option Int
  Value : Option Int
  Hash : String
  Input : List Byte
  Size : StorageSize
  ChainId : Option Int
  deriving DecidableEq

/-- The anonymous struct behind `outStruct`, declared with the same fields in
both `WriteAll` functions. -/
structure BlockOut where
  BaseFee : Option Int
  Bloom : Bloom
  Coinbase : String
  Difficulty : Option Int
  Extra : List Byte
  GasLimit : Nat
  GasUsed : Nat
  Hash : String
  Header : Header
  MixDigest : String
  Nonce : BlockNonce
  Number : String
  ParentHash : String
  ReceiptHash : String
  Root : String
  Size : StorageSize
  Time : Time
  Transactions : GoSlice TxOut
  Receipts : GoSlice Receipt
  deriving DecidableEq

/-- What does not belong to the two files and is not computed here: the hash
behind the address checksum and `json.Marshal` on the block record. -/
structure Deps where
  keccak : Keccak
  jsonMarshal : BlockOut → Except GoError (List Byte)

/-! ## Effects -/

/-- The levels of package `log` that the writers use. -/
inductive Lvl where
  | Crit
  | Error
  | Warn
  | Info
  deriving DecidableEq

/-- A value in the context of a log line. -/
inductive LogValue where
  | hash (h : Hash)
  | err (e : GoError)
  deriving DecidableEq

/-- A value in the field map of a stream entry (`map[string]interface{}`). -/
inductive XValue where
  | str (s : String)
  | bytes (b : List Byte)
  deriving DecidableEq

/-- Value of `redis.XAddArgs`; `Values` lists the keys of the Go map with
their values. -/
structure XAddArgs where
  Stream : String
  MaxLen : Int
  MaxLenApprox : Int
  ID : String
  Values : List (String × XValue)
  deriving DecidableEq

/-- Value of `pubsub.Message`, of which only `Data` is set. -/
structure Message where
  Data : List Byte
  deriving DecidableEq

/-- Something a writer does to the outside world. -/
inductive Effect where
  | log (lvl : Lvl) (msg : String) (ctx : List (String × LogValue))
  | xadd (args : XAddArgs)
  | publish (msg : Message)
  deriving DecidableEq

/-- Whether an effect is a call of a transport: an append or a publish. -/
def Effect.isAppend : Effect → Bool
  | Effect.xadd _ => true
  | Effect.publish _ => true
  | Effect.log _ _ _ => false

/-- Whether the `XADD` command that the client sends for these arguments
carries a `MAXLEN` option, which is what makes the server trim the stream: the
client adds it when `MaxLen` or else `MaxLenApprox` is positive. -/
def XAddArgs.trims (a : XAddArgs) : Bool :=
  decide (a.MaxLen > 0 ∨ a.MaxLenApprox > 0)

/-- A run of Go code: the effects it had, in order, and how it ended.
`result = some a` is a normal return of `a` to the caller; `result = none` is
the end of the process (`os.Exit`) before any return. -/
structure Proc (α : Type) where
  trace : List Effect
  result : Option α

/-- A run that returns at once. -/
def Proc.ret {α : Type} (a : α) : Proc α := { trace := [], result := some a }

/-- Sequencing: the second run happens only if the first one returned. -/
def Proc.bind {α β : Type} (p : Proc α) (f : α → Proc β) : Proc β :=
  match p.result with
  | none => { trace := p.trace, result := none }
  | some a => { trace := p.trace ++ (f a).trace, result := (f a).result }

/-- Modelled from the spec: `log.Crit` of package `log` (not part of the two
files modelled here): writes the line at the critical level and ends the
process, so nothing of the caller runs after it. -/
def log.Crit {α : Type} (msg : String) (ctx : List (String × LogValue)) : Proc α :=
  { trace := [Effect.log Lvl.Crit msg ctx], result := none }

/-- Modelled from the spec: `log.Warn` of package `log`: writes the line and
returns. -/
def log.Warn (msg : String) (ctx : List (String × LogValue)) : Proc Unit :=
  { trace := [Effect.log Lvl.Warn msg ctx], result := some () }

/-- Modelled from the spec: `log.Error` of package `log`: writes the line and
returns. -/
def log.Error (msg : String) (ctx : List (String × LogValue)) : Proc Unit :=
  { trace := [Effect.log Lvl.Error msg ctx], result := some () }

/-- The struct `RedisDB`: its client, given by the reply it makes to an `XAdd`
(the id of the new entry, or an error). -/
structure RedisDB where
  client : XAddArgs → Except GoError String

/-- The call `r.client.XAdd(r.ctx, args)` with its reply. -/
def RedisDB.XAdd (r : RedisDB) (args : XAddArgs) : Proc (Except GoError String) :=
  { trace := [Effect.xadd args], result := some (r.client args) }

/-- The struct `WriteStream`: its topic, given by what `Get` returns for a
published message (the server id, or an error). -/
structure WriteStream where
  topic : Message → Except GoError String

/-- The call `r.topic.Publish(r.ctx, msg)` followed by `result.Get(r.ctx)`. -/
def WriteStream.Publish (r : WriteStream) (msg : Message) : Proc (Except GoError String) :=
  { trace := [Effect.publish msg], result := some (r.topic msg) }

/-! ## `redis_db.go` -/

/-- The function `RedisDB.WriteCode`: one `XAdd` on the stream `block-code`;
an error reply is fatal. -/
def RedisDB.WriteCode (r : RedisDB) (hash : Hash) (code : List Byte) : Proc Unit :=
  (r.XAdd
    { Stream := "block-code"
      MaxLen := 0
      MaxLenApprox := 0
      ID := ""
      Values := [("hash", XValue.str hash.String), ("data", XValue.bytes code)] }).bind fun res =>
  match res with
  | Except.error err => log.Crit "Failed to store contract code" [("err", LogValue.err err)]
  | Except.ok _ => Proc.ret ()

/-- The body of the `for` loop of `RedisDB.WriteAll` once `signer.Sender`
returned `frm` without error: the `TxOut` that is appended. -/
def RedisDB.WriteAll.out (d : Deps) (frm : Address) (txn : Transaction) : TxOut :=
  let out : TxOut :=
    { From := frm.Hex d.keccak
      To := ""
      Typ := txn.Typ
      Nonce := txn.Nonce
      Gas := txn.Gas
      GasPrice := some txn.GasPrice
      GasFeeCap := some txn.GasFeeCap
      Value := some txn.Value
      Hash := txn.Hash.Hex
      Input := txn.Data
      Size := txn.Size
      ChainId := none }
  match txn.To with
  | some toAddr => { out with To := toAddr.Hex d.keccak }
  | none => out

/-- The `for` loop of `RedisDB.WriteAll` over the transactions still to do,
with `outTransactions` as built so far. -/
def RedisDB.WriteAll.loop (d : Deps) (signer : Signer) :
    List Transaction → List TxOut → Proc (List TxOut)
  | [], outTransactions => Proc.ret outTransactions
  | txn :: rest, outTransactions =>
    match signer.Sender txn with
    | Except.error err =>
      log.Crit "error in txn" [("txn", LogValue.hash txn.Hash), ("err", LogValue.err err)]
    | Except.ok frm =>
      RedisDB.WriteAll.loop d signer rest (outTransactions ++ [RedisDB.WriteAll.out d frm txn])

/-- The first part of `RedisDB.WriteAll`, up to the call of `json.Marshal`:
the value of `outStruct` at that point. -/
def RedisDB.WriteAll.outStruct (d : Deps) (signer : Signer) (block : Block)
    (receipts : GoSlice Receipt) : Proc BlockOut :=
  let baseFee := block.BaseFee
  let bloom := block.Bloom
  let coinbase := block.Coinbase.String d.keccak
  let difficulty := block.Difficulty
  let extra := block.Extra
  let gasLimit := block.GasLimit
  let gasUsed := block.GasUsed
  let hash := block.Hash.String
  let header := block.Header
  let mixDigest := block.MixDigest.String
  let nonce := block.Header.Nonce
  let number := toString block.Number
  let parentHash := block.ParentHash.String
  let receiptHash := block.ReceiptHash.String
  let root := block.Root.String
  let size := block.Size
  let ts := time.Unix (int64 block.Time) 0
  let transactions := block.Transactions
  let outStruct : BlockOut :=
    { BaseFee := baseFee
      Bloom := bloom
      Coinbase := coinbase
      Difficulty := some difficulty
      Extra := extra
      GasLimit := gasLimit
      GasUsed := gasUsed
      Hash := hash
      Header := header
      MixDigest := mixDigest
      Nonce := nonce
      Number := number
      ParentHash := parentHash
      ReceiptHash := receiptHash
      Root := root
      Size := size
      Time := ts
      Transactions := none
      Receipts := receipts }
  if transactions.length > 0 then
    (RedisDB.WriteAll.loop d signer transactions []).bind fun outTransactions =>
      Proc.ret { outStruct with Transactions := some outTransactions }
  else
    Proc.ret outStruct

/-- The function `RedisDB.WriteAll`: build the record, encode it, append it to the stream
`block-transactions`; an error reply is logged as a warning. -/
def RedisDB.WriteAll (d : Deps) (r : RedisDB) (signer : Signer) (block : Block)
    (receipts : GoSlice Receipt) : Proc Unit :=
  (RedisDB.WriteAll.outStruct d signer block receipts).bind fun outStruct =>
  (match d.jsonMarshal outStruct with
    | Except.error err => log.Crit "error marshalling block" [("err", LogValue.err err)]
    | Except.ok bJson => Proc.ret bJson).bind fun bJson =>
  (r.XAdd
    { Stream := "block-transactions"
      MaxLen := 0
      MaxLenApprox := 0
      ID := ""
      Values := [("data", XValue.bytes bJson)] }).bind fun res =>
  match res with
  | Except.error resErr => log.Warn "redis error" [("err", LogValue.err resErr)]
  | Except.ok _ => Proc.ret ()

/-! ## `write_stream.go` -/

/-- The body of the `for` loop of `WriteStream.WriteAll` once `signer.Sender`
returned `frm` without error: the `TxOut` that is appended. -/
def WriteStream.WriteAll.out (d : Deps) (frm : Address) (txn : Transaction) : TxOut :=
  let out : TxOut :=
    { From := frm.Hex d.keccak
      To := ""
      Typ := txn.Typ
      Nonce := txn.Nonce
      Gas := txn.Gas
      GasPrice := some txn.GasPrice
      GasFeeCap := some txn.GasFeeCap
      Value := some txn.Value
      Hash := txn.Hash.Hex
      Input := txn.Data
      Size := txn.Size
      ChainId := none }
  match txn.To with
  | some toAddr => { out with To := toAddr.Hex d.keccak }
  | none => out

/-- The `for` loop of `WriteStream.WriteAll` over the transactions still to
do, with `outTransactions` as built so far. -/
def WriteStream.WriteAll.loop (d : Deps) (signer : Signer) :
    List Transaction → List TxOut → Proc (List TxOut)
  | [], outTransactions => Proc.ret outTransactions
  | txn :: rest, outTransactions =>
    match signer.Sender txn with
    | Except.error err =>
      log.Crit "error in txn" [("txn", LogValue.hash txn.Hash), ("err", LogValue.err err)]
    | Except.ok frm =>
      WriteStream.WriteAll.loop d signer rest
        (outTransactions ++ [WriteStream.WriteAll.out d frm txn])

/-- The first part of `WriteStream.WriteAll`, up to the call of
`json.Marshal`: the value of `outStruct` at that point. -/
def WriteStream.WriteAll.outStruct (d : Deps) (signer : Signer) (block : Block)
    (receipts : GoSlice Receipt) : Proc BlockOut :=
  let baseFee := block.BaseFee
  let bloom := block.Bloom
  let coinbase := block.Coinbase.String d.keccak
  let difficulty := block.Difficulty
  let extra := block.Extra
  let gasLimit := block.GasLimit
  let gasUsed := block.GasUsed
  let hash := block.Hash.String
  let header := block.Header
  let mixDigest := block.MixDigest.String
  let nonce := block.Header.Nonce
  let number := toString block.Number
  let parentHash := block.ParentHash.String
  let receiptHash := block.ReceiptHash.String
  let root := block.Root.String
  let size := block.Size
  let ts := time.Unix (int64 block.Time) 0
  let transactions := block.Transactions
  let outStruct : BlockOut :=
    { BaseFee := baseFee
      Bloom := bloom
      Coinbase := coinbase
      Difficulty := some difficulty
      Extra := extra
      GasLimit := gasLimit
      GasUsed := gasUsed
      Hash := hash
      Header := header
      MixDigest := mixDigest
      Nonce := nonce
      Number := number
      ParentHash := parentHash
      ReceiptHash := receiptHash
      Root := root
      Size := size
      Time := ts
      Transactions := none
      Receipts := receipts }
  if transactions.length > 0 then
    (WriteStream.WriteAll.loop d signer transactions []).bind fun outTransactions =>
      Proc.ret { outStruct with Transactions := some outTransactions }
  else
    Proc.ret outStruct

/-- The function `WriteStream.WriteAll`: build the record, encode it, publish it on the
topic and wait for the result; an error is logged at the error level. -/
def WriteStream.WriteAll (d : Deps) (r : WriteStream) (signer : Signer) (block : Block)
    (receipts : GoSlice Receipt) : Proc Unit :=
  (WriteStream.WriteAll.outStruct d signer block receipts).bind fun outStruct =>
  (match d.jsonMarshal outStruct with
    | Except.error err => log.Crit "error marshalling block" [("err", LogValue.err err)]
    | Except.ok bJson => Proc.ret bJson).bind fun bJson =>
  (r.Publish { Data := bJson }).bind fun resErr =>
  match resErr with
  | Except.error resErr => log.Error "Get err" [("err", LogValue.err resErr)]
  | Except.ok _ => Proc.ret ()

/-! ## Names used in the statements -/

/-- How a loop entry relates to its transaction: it is the loop body at the
address that the signer recovered. -/
def Normalizes (d : Deps) (signer : Signer) (txn : Transaction) (o : TxOut) : Prop :=
  ∃ frm, signer.Sender txn = Except.ok frm ∧ o = RedisDB.WriteAll.out d frm txn

/-- The arguments of the append that `RedisDB.WriteAll` makes for the encoded
bytes `bJson`. -/
def blockXAddArgs (bJson : List Byte) : XAddArgs :=
  { Stream := "block-transactions"
    MaxLen := 0
    MaxLenApprox := 0
    ID := ""
    Values := [("data", XValue.bytes bJson)] }

/-! ## Sample values -/

/-- A stand-in for the hash function that sends everything to 32 zero bytes. -/
def sampleKeccak : Keccak := fun _ => List.replicate 32 0

/-- Sample dependencies: the stand-in hash and an encoder that answers with
the two bytes of an empty JSON object. -/
def sampleDeps : Deps :=
  { keccak := sampleKeccak, jsonMarshal := fun _ => Except.ok [0x7b, 0x7d] }

/-- The hash whose 32 bytes are all `b`. -/
def sampleHash (b : Byte) : Hash := { bytes := List.replicate 32 b }

/-- The address whose 20 bytes are all `b`. -/
def sampleAddress (b : Byte) : Address := { bytes := List.replicate 20 b }

/-- A transfer of one ether to the address `0xabab…ab`. -/
def sampleTransfer : Transaction :=
  { Typ := 0, Nonce := 5, Gas := 21000, GasPrice := 2000000000, GasFeeCap := 2000000000,
    Value := 1000000000000000000, Hash := sampleHash 0x11, Data := [], Size := 110,
    To := some (sampleAddress 0xab) }

/-- A contract creation. -/
def sampleCreation : Transaction :=
  { Typ := 2, Nonce := 6, Gas := 90000, GasPrice := 2000000000, GasFeeCap := 3000000000,
    Value := 0, Hash := sampleHash 0x22, Data := [0x60, 0x80], Size := 140, To := none }

/-- A header at Unix time `t`. -/
def sampleHeader (t : Nat) : Header :=
  { ParentHash := sampleHash 1, UncleHash := sampleHash 2, Coinbase := sampleAddress 3,
    Root := sampleHash 4, TxHash := sampleHash 5, ReceiptHash := sampleHash 6,
    Bloom := { bytes := List.replicate 256 0 }, Difficulty := 2, Number := 100,
    GasLimit := 30000000, GasUsed := 111000, Time := t, Extra := [],
    MixDigest := sampleHash 7, Nonce := { bytes := List.replicate 8 0 },
    BaseFee := some 1000000000 }

/-- A block at Unix time `t` with the transactions `txs`. -/
def sampleBlock (t : Nat) (txs : List Transaction) : Block :=
  { header := sampleHeader t, transactions := txs, hash := sampleHash 9, size := 600 }

/-- A receipt with cumulative gas `g`. -/
def sampleReceipt (g : Nat) : Receipt :=
  { Typ := 0, PostState := [], Status := 1, CumulativeGasUsed := g,
    Bloom := { bytes := List.replicate 256 0 }, TxHash := sampleHash 0x11,
    ContractAddress := sampleAddress 0, GasUsed := g, BlockHash := sampleHash 9,
    BlockNumber := 100, TransactionIndex := 0 }

/-- A signer that recovers the address `0xcdcd…cd` for every transaction. -/
def sampleSigner : Signer := { Sender := fun _ => Except.ok (sampleAddress 0xcd) }

/-- A signer that fails on contract creations and recovers `0xcdcd…cd` for
every other transaction. -/
def strictSigner : Signer :=
  { Sender := fun txn =>
      match txn.To with
      | none => Except.error "invalid signature"
      | some _ => Except.ok (sampleAddress 0xcd) }

/-- A Redis client that acknowledges every append. -/
def sampleRedis : RedisDB := { client := fun _ => Except.ok "1-0" }

/-- A Redis client whose connection is down. -/
def downRedis : RedisDB := { client := fun _ => Except.error "connection refused" }

/-- A topic that acknowledges every message. -/
def sampleStream : WriteStream := { topic := fun _ => Except.ok "1" }

/-- A topic whose connection is down. -/
def downStream : WriteStream := { topic := fun _ => Except.error "unavailable" }

/-! ## Lemmas on the pieces -/

theorem Proc.bind_ret {α β : Type} (a : α) (f : α → Proc β) :
    (Proc.ret a).bind f = f a := by
  simp [Proc.bind, Proc.ret]

theorem Proc.bind_crit {α β : Type} (msg : String) (ctx : List (String × LogValue))
    (f : α → Proc β) :
    (log.Crit msg ctx : Proc α).bind f = log.Crit msg ctx := by
  simp [Proc.bind, log.Crit]

/-- The two loop bodies are the same function. -/
theorem WriteStream.out_eq (d : Deps) (frm : Address) (txn : Transaction) :
    WriteStream.WriteAll.out d frm txn = RedisDB.WriteAll.out d frm txn := rfl

/-- The two loops are the same function. -/
theorem WriteStream.loop_eq (d : Deps) (signer : Signer) (txs : List Transaction)
    (acc : List TxOut) :
    WriteStream.WriteAll.loop d signer txs acc = RedisDB.WriteAll.loop d signer txs acc := by
  induction txs generalizing acc with
  | nil => rfl
  | cons txn rest ih =>
    simp only [WriteStream.WriteAll.loop, RedisDB.WriteAll.loop]
    cases signer.Sender txn with
    | error err => rfl
    | ok frm => simp only [ih, WriteStream.out_eq]

/-- The two record builders are the same function. -/
theorem WriteStream.outStruct_eq (d : Deps) (signer : Signer) (block : Block)
    (receipts : GoSlice Receipt) :
    WriteStream.WriteAll.outStruct d signer block receipts
      = RedisDB.WriteAll.outStruct d signer block receipts := by
  simp only [WriteStream.WriteAll.outStruct, RedisDB.WriteAll.outStruct, WriteStream.loop_eq]

/-- With every sender recoverable the loop returns, without any effect, one
entry per transaction, in order, after what was there. -/
theorem RedisDB.loop_ok (d : Deps) (signer : Signer) (txs : List Transaction)
    (acc : List TxOut) (h : ∀ t ∈ txs, ∃ a, signer.Sender t = Except.ok a) :
    ∃ l, RedisDB.WriteAll.loop d signer txs acc = Proc.ret (acc ++ l)
      ∧ List.Forall₂ (Normalizes d signer) txs l := by
  induction txs generalizing acc with
  | nil => exact ⟨[], by simp [RedisDB.WriteAll.loop], List.Forall₂.nil⟩
  | cons txn rest ih =>
    obtain ⟨a, ha⟩ := h txn (List.mem_cons_self _ _)
    obtain ⟨l, hl, hrel⟩ := ih (acc ++ [RedisDB.WriteAll.out d a txn])
      (fun t ht => h t (List.mem_cons_of_mem _ ht))
    refine ⟨RedisDB.WriteAll.out d a txn :: l, ?_, List.Forall₂.cons ⟨a, ha, rfl⟩ hrel⟩
    simp only [RedisDB.WriteAll.loop, ha, hl, List.append_assoc, List.singleton_append]

/-- With a sender that cannot be recovered the loop ends in the fatal branch
of the first such transaction. -/
theorem RedisDB.loop_fail (d : Deps) (signer : Signer) (txs : List Transaction)
    (acc : List TxOut) (h : ∃ t ∈ txs, ∃ e, signer.Sender t = Except.error e) :
    ∃ pre t e post, txs = pre ++ t :: post
      ∧ (∀ u ∈ pre, ∃ a, signer.Sender u = Except.ok a)
      ∧ signer.Sender t = Except.error e
      ∧ RedisDB.WriteAll.loop d signer txs acc
          = log.Crit "error in txn" [("txn", LogValue.hash t.Hash), ("err", LogValue.err e)] := by
  induction txs generalizing acc with
  | nil => obtain ⟨t, ht, _⟩ := h; simp at ht
  | cons txn rest ih =>
    cases hs : signer.Sender txn with
    | error err =>
      exact ⟨[], txn, err, rest, rfl, by simp, hs, by simp only [RedisDB.WriteAll.loop, hs]⟩
    | ok frm =>
      have h' : ∃ t ∈ rest, ∃ e, signer.Sender t = Except.error e := by
        obtain ⟨t, ht, e, he⟩ := h
        rcases List.mem_cons.1 ht with rfl | ht'
        · rw [hs] at he; cases he
        · exact ⟨t, ht', e, he⟩
      obtain ⟨pre, t, e, post, hsplit, hpre, hfail, hrun⟩ :=
        ih (acc ++ [RedisDB.WriteAll.out d frm txn]) h'
      refine ⟨txn :: pre, t, e, post, by simp [hsplit], ?_, hfail, ?_⟩
      · intro u hu
        rcases List.mem_cons.1 hu with rfl | hu'
        · exact ⟨frm, hs⟩
        · exact hpre u hu'
      · simp only [RedisDB.WriteAll.loop, hs, hrun]

/-- The checksummed hex string of an address is never the empty string: it
starts with the prefix `0x`. -/
theorem Address.Hex_ne_empty (keccak : Keccak) (a : Address) : a.Hex keccak ≠ "" := by
  intro h
  have h2 := congrArg String.data h
  simp [Address.Hex, Address.checksumHex, Address.hex, List.enum, List.enumFrom] at h2

/-- With every sender recoverable, both writers build, without any effect, the
same record: the input receipts, and one entry per transaction, in order, each
the loop body at the recovered sender; no transaction gives the nil slice. -/
theorem outStruct_ok (d : Deps) (signer : Signer) (block : Block)
    (receipts : GoSlice Receipt)
    (h : ∀ t ∈ block.Transactions, ∃ a, signer.Sender t = Except.ok a) :
    ∃ rec, RedisDB.WriteAll.outStruct d signer block receipts = Proc.ret rec
      ∧ WriteStream.WriteAll.outStruct d signer block receipts = Proc.ret rec
      ∧ rec.Receipts = receipts
      ∧ rec.Time = time.Unix (int64 block.Time) 0
      ∧ rec.Transactions.len = block.Transactions.length
      ∧ (block.Transactions.length = 0 → rec.Transactions = none)
      ∧ ∀ (i : Nat) (hi : i < block.Transactions.length),
          ∃ frm, signer.Sender (block.Transactions.get ⟨i, hi⟩) = Except.ok frm
            ∧ rec.Transactions.toList[i]?
                = some (RedisDB.WriteAll.out d frm (block.Transactions.get ⟨i, hi⟩)) := by
  obtain ⟨l, hl, hrel⟩ := RedisDB.loop_ok d signer block.Transactions [] h
  by_cases hn : block.Transactions.length > 0
  · have hR : ∃ rec, RedisDB.WriteAll.outStruct d signer block receipts = Proc.ret rec
        ∧ rec.Receipts = receipts ∧ rec.Time = time.Unix (int64 block.Time) 0
        ∧ rec.Transactions = some l := by
      simp only [RedisDB.WriteAll.outStruct, hn, if_true, hl, Proc.bind_ret, List.nil_append]
      exact ⟨_, rfl, rfl, rfl, rfl⟩
    obtain ⟨rec, hrec, hrc, htime, htx⟩ := hR
    refine ⟨rec, hrec, ?_, hrc, htime, ?_, ?_, ?_⟩
    · rw [WriteStream.outStruct_eq]; exact hrec
    · rw [htx]
      simp only [GoSlice.len]
      exact hrel.length_eq.symm
    · intro h0; omega
    · intro i hi
      have hi2 : i < l.length := by rw [← hrel.length_eq]; exact hi
      obtain ⟨frm, hfrm, ho⟩ := List.Forall₂.get hrel hi hi2
      refine ⟨frm, hfrm, ?_⟩
      rw [htx]
      simp only [GoSlice.toList]
      rw [List.getElem?_eq_getElem hi2, ← ho]
      rfl
  · have h0 : block.Transactions.length = 0 := by omega
    have hR : ∃ rec, RedisDB.WriteAll.outStruct d signer block receipts = Proc.ret rec
        ∧ rec.Receipts = receipts ∧ rec.Time = time.Unix (int64 block.Time) 0
        ∧ rec.Transactions = none := by
      simp only [RedisDB.WriteAll.outStruct, hn, if_false]
      exact ⟨_, rfl, rfl, rfl, rfl⟩
    obtain ⟨rec, hrec, hrc, htime, htx⟩ := hR
    refine ⟨rec, hrec, ?_, hrc, htime, ?_, fun _ => htx, ?_⟩
    · rw [WriteStream.outStruct_eq]; exact hrec
    · rw [htx, h0]; rfl
    · intro i hi; omega

/-- With a sender that cannot be recovered, both record builders end in the
fatal branch of the first such transaction. -/
theorem outStruct_fail (d : Deps) (signer : Signer) (block : Block)
    (receipts : GoSlice Receipt)
    (h : ∃ t ∈ block.Transactions, ∃ e, signer.Sender t = Except.error e) :
    ∃ pre t e post, block.Transactions = pre ++ t :: post
      ∧ (∀ u ∈ pre, ∃ a, signer.Sender u = Except.ok a)
      ∧ signer.Sender t = Except.error e
      ∧ RedisDB.WriteAll.outStruct d signer block receipts
          = log.Crit "error in txn" [("txn", LogValue.hash t.Hash), ("err", LogValue.err e)]
      ∧ WriteStream.WriteAll.outStruct d signer block receipts
          = log.Crit "error in txn" [("txn", LogValue.hash t.Hash), ("err", LogValue.err e)] := by
  obtain ⟨pre, t, e, post, hsplit, hpre, hfail, hrun⟩ :=
    RedisDB.loop_fail d signer block.Transactions [] h
  have hn : block.Transactions.length > 0 := by
    rw [hsplit]; simp
  refine ⟨pre, t, e, post, hsplit, hpre, hfail, ?_, ?_⟩
  · simp only [RedisDB.WriteAll.outStruct, hn, if_true, hrun, Proc.bind_crit]
  · rw [WriteStream.outStruct_eq]
    simp only [RedisDB.WriteAll.outStruct, hn, if_true, hrun, Proc.bind_crit]

/-- The field `To` of a loop entry: empty without a recipient, else the
checksummed hex string of the recipient. -/
theorem RedisDB.out_To (d : Deps) (frm : Address) (txn : Transaction) :
    (RedisDB.WriteAll.out d frm txn).To
      = match txn.To with
        | none => ""
        | some a => a.Hex d.keccak := by
  unfold RedisDB.WriteAll.out
  cases txn.To <;> rfl

/-- The other fields of a loop entry. -/
theorem RedisDB.out_fields (d : Deps) (frm : Address) (txn : Transaction) :
    (RedisDB.WriteAll.out d frm txn).Typ = txn.Typ
      ∧ (RedisDB.WriteAll.out d frm txn).Nonce = txn.Nonce
      ∧ (RedisDB.WriteAll.out d frm txn).Gas = txn.Gas
      ∧ (RedisDB.WriteAll.out d frm txn).GasPrice = some txn.GasPrice
      ∧ (RedisDB.WriteAll.out d frm txn).GasFeeCap = some txn.GasFeeCap
      ∧ (RedisDB.WriteAll.out d frm txn).Value = some txn.Value
      ∧ (RedisDB.WriteAll.out d frm txn).Hash = txn.Hash.Hex
      ∧ (RedisDB.WriteAll.out d frm txn).Input = txn.Data
      ∧ (RedisDB.WriteAll.out d frm txn).Size = txn.Size
      ∧ (RedisDB.WriteAll.out d frm txn).From = frm.Hex d.keccak := by
  unfold RedisDB.WriteAll.out
  cases txn.To <;> exact ⟨rfl, rfl, rfl, rfl, rfl, rfl, rfl, rfl, rfl, rfl⟩

/-- Every sender is recoverable, or some sender is not. -/
theorem senders_ok_or_fail (signer : Signer) (txs : List Transaction) :
    (∀ t ∈ txs, ∃ a, signer.Sender t = Except.ok a)
      ∨ (∃ t ∈ txs, ∃ e, signer.Sender t = Except.error e) := by
  by_cases h : ∀ t ∈ txs, ∃ a, signer.Sender t = Except.ok a
  · exact Or.inl h
  · right
    push_neg at h
    obtain ⟨t, ht, hno⟩ := h
    refine ⟨t, ht, ?_⟩
    cases hs : signer.Sender t with
    | error e => exact ⟨e, rfl⟩
    | ok a => exact absurd hs (hno a)

/-- The run of `RedisDB.WriteAll` once the record is built: fatal when the encoder fails,
else one append, and a warning when the reply is an error. -/
theorem redis_WriteAll_of_ret (d : Deps) (r : RedisDB) (signer : Signer) (block : Block)
    (receipts : GoSlice Receipt) (rec : BlockOut)
    (hrec : RedisDB.WriteAll.outStruct d signer block receipts = Proc.ret rec) :
    RedisDB.WriteAll d r signer block receipts =
      match d.jsonMarshal rec with
      | Except.error err => log.Crit "error marshalling block" [("err", LogValue.err err)]
      | Except.ok bJson =>
        match r.client (blockXAddArgs bJson) with
        | Except.error resErr =>
          { trace := [Effect.xadd (blockXAddArgs bJson),
                      Effect.log Lvl.Warn "redis error" [("err", LogValue.err resErr)]]
            result := some () }
        | Except.ok _ => { trace := [Effect.xadd (blockXAddArgs bJson)], result := some () } := by
  simp only [RedisDB.WriteAll, hrec, Proc.bind_ret]
  cases d.jsonMarshal rec with
  | error err => simp only [Proc.bind_crit]
  | ok bJson =>
    simp only [Proc.bind_ret]
    cases hc : r.client (blockXAddArgs bJson) with
    | error resErr =>
      simp [Proc.bind, RedisDB.XAdd, log.Warn, blockXAddArgs] at hc ⊢
      simp [hc]
    | ok id =>
      simp [Proc.bind, RedisDB.XAdd, Proc.ret, blockXAddArgs] at hc ⊢
      simp [hc]

/-- The run of `WriteStream.WriteAll` once the record is built: fatal when the encoder
fails, else one publish, and an error line when the result is an error. -/
theorem stream_WriteAll_of_ret (d : Deps) (w : WriteStream) (signer : Signer)
    (block : Block) (receipts : GoSlice Receipt) (rec : BlockOut)
    (hrec : WriteStream.WriteAll.outStruct d signer block receipts = Proc.ret rec) :
    WriteStream.WriteAll d w signer block receipts =
      match d.jsonMarshal rec with
      | Except.error err => log.Crit "error marshalling block" [("err", LogValue.err err)]
      | Except.ok bJson =>
        match w.topic { Data := bJson } with
        | Except.error resErr =>
          { trace := [Effect.publish { Data := bJson },
                      Effect.log Lvl.Error "Get err" [("err", LogValue.err resErr)]]
            result := some () }
        | Except.ok _ => { trace := [Effect.publish { Data := bJson }], result := some () } := by
  simp only [WriteStream.WriteAll, hrec, Proc.bind_ret]
  cases d.jsonMarshal rec with
  | error err => simp only [Proc.bind_crit]
  | ok bJson =>
    simp only [Proc.bind_ret]
    cases hc : w.topic { Data := bJson } with
    | error resErr => simp [Proc.bind, WriteStream.Publish, log.Error, hc]
    | ok id => simp [Proc.bind, WriteStream.Publish, Proc.ret, hc]

/-- The run of `RedisDB.WriteAll` when the record builder ended in a fatal branch: the
run is that fatal branch and nothing else. -/
theorem redis_WriteAll_of_crit (d : Deps) (r : RedisDB) (signer : Signer) (block : Block)
    (receipts : GoSlice Receipt) (msg : String) (ctx : List (String × LogValue))
    (hrec : RedisDB.WriteAll.outStruct d signer block receipts = log.Crit msg ctx) :
    RedisDB.WriteAll d r signer block receipts = log.Crit msg ctx := by
  simp only [RedisDB.WriteAll, hrec, Proc.bind_crit]

/-- The run of `WriteStream.WriteAll` when the record builder ended in a fatal branch. -/
theorem stream_WriteAll_of_crit (d : Deps) (w : WriteStream) (signer : Signer)
    (block : Block) (receipts : GoSlice Receipt) (msg : String)
    (ctx : List (String × LogValue))
    (hrec : WriteStream.WriteAll.outStruct d signer block receipts = log.Crit msg ctx) :
    WriteStream.WriteAll d w signer block receipts = log.Crit msg ctx := by
  simp only [WriteStream.WriteAll, hrec, Proc.bind_crit]

/-! ## The properties -/

/-- C1. All-or-nothing on sender failure: when the sender of at least one
transaction of the block cannot be recovered, `WriteAll` of `RedisDB` and of
`WriteStream` is exactly the fatal branch of the first such transaction (every
transaction before it was recoverable): one critical log line naming its hash,
then the end of the process.  No append and no publish is in the trace, and
neither function returns. -/
theorem WriteAll_sender_failure_all_or_nothing (d : Deps) (r : RedisDB) (w : WriteStream)
    (signer : Signer) (block : Block) (receipts : GoSlice Receipt)
    (h : ∃ t ∈ block.Transactions, ∃ e, signer.Sender t = Except.error e) :
    ∃ pre t e post, block.Transactions = pre ++ t :: post
      ∧ (∀ u ∈ pre, ∃ a, signer.Sender u = Except.ok a)
      ∧ signer.Sender t = Except.error e
      ∧ RedisDB.WriteAll d r signer block receipts
          = log.Crit "error in txn" [("txn", LogValue.hash t.Hash), ("err", LogValue.err e)]
      ∧ WriteStream.WriteAll d w signer block receipts
          = log.Crit "error in txn" [("txn", LogValue.hash t.Hash), ("err", LogValue.err e)]
      ∧ (∀ args, Effect.xadd args ∉ (RedisDB.WriteAll d r signer block receipts).trace)
      ∧ (∀ msg, Effect.publish msg ∉ (WriteStream.WriteAll d w signer block receipts).trace)
      ∧ (RedisDB.WriteAll d r signer block receipts).result = none
      ∧ (WriteStream.WriteAll d w signer block receipts).result = none := by
  obtain ⟨pre, t, e, post, hsplit, hpre, hfail, hR, hW⟩ :=
    outStruct_fail d signer block receipts h
  have hR2 := redis_WriteAll_of_crit d r signer block receipts _ _ hR
  have hW2 := stream_WriteAll_of_crit d w signer block receipts _ _ hW
  refine ⟨pre, t, e, post, hsplit, hpre, hfail, hR2, hW2, ?_, ?_, ?_, ?_⟩
  · intro args; rw [hR2]; simp [log.Crit]
  · intro msg; rw [hW2]; simp [log.Crit]
  · rw [hR2]; rfl
  · rw [hW2]; rfl

/-- C1, at a block whose second transaction has no recoverable sender. -/
theorem WriteAll_sender_failure_all_or_nothing_witness :
    (∃ t ∈ (sampleBlock 0 [sampleTransfer, sampleCreation]).Transactions,
        ∃ e, strictSigner.Sender t = Except.error e)
    ∧ ∃ pre t e post,
      (sampleBlock 0 [sampleTransfer, sampleCreation]).Transactions = pre ++ t :: post
      ∧ (∀ u ∈ pre, ∃ a, strictSigner.Sender u = Except.ok a)
      ∧ strictSigner.Sender t = Except.error e
      ∧ RedisDB.WriteAll sampleDeps sampleRedis strictSigner
            (sampleBlock 0 [sampleTransfer, sampleCreation]) none
          = log.Crit "error in txn" [("txn", LogValue.hash t.Hash), ("err", LogValue.err e)]
      ∧ WriteStream.WriteAll sampleDeps sampleStream strictSigner
            (sampleBlock 0 [sampleTransfer, sampleCreation]) none
          = log.Crit "error in txn" [("txn", LogValue.hash t.Hash), ("err", LogValue.err e)]
      ∧ (∀ args, Effect.xadd args ∉ (RedisDB.WriteAll sampleDeps sampleRedis strictSigner
            (sampleBlock 0 [sampleTransfer, sampleCreation]) none).trace)
      ∧ (∀ msg, Effect.publish msg ∉ (WriteStream.WriteAll sampleDeps sampleStream strictSigner
            (sampleBlock 0 [sampleTransfer, sampleCreation]) none).trace)
      ∧ (RedisDB.WriteAll sampleDeps sampleRedis strictSigner
            (sampleBlock 0 [sampleTransfer, sampleCreation]) none).result = none
      ∧ (WriteStream.WriteAll sampleDeps sampleStream strictSigner
            (sampleBlock 0 [sampleTransfer, sampleCreation]) none).result = none :=
  have hyp : ∃ t ∈ (sampleBlock 0 [sampleTransfer, sampleCreation]).Transactions,
      ∃ e, strictSigner.Sender t = Except.error e :=
    ⟨sampleCreation, by simp [sampleBlock, Block.Transactions], "invalid signature", rfl⟩
  ⟨hyp, WriteAll_sender_failure_all_or_nothing sampleDeps sampleRedis sampleStream strictSigner
    (sampleBlock 0 [sampleTransfer, sampleCreation]) none hyp⟩

/-- C2. Transaction count and order: for a block with N transactions whose
senders are all recoverable, both writers build the same record without any
effect; its transaction sequence has exactly N entries, and entry `i` is the
loop body at transaction `i` and the sender recovered for it, so that its hash
field is the hex of the hash of that transaction and its sender field the hex of
that sender.  For N = 0 the sequence is empty (it is the nil slice). -/
theorem WriteAll_transactions_count_and_order (d : Deps) (signer : Signer) (block : Block)
    (receipts : GoSlice Receipt)
    (h : ∀ t ∈ block.Transactions, ∃ a, signer.Sender t = Except.ok a) :
    ∃ rec, RedisDB.WriteAll.outStruct d signer block receipts = Proc.ret rec
      ∧ WriteStream.WriteAll.outStruct d signer block receipts = Proc.ret rec
      ∧ rec.Transactions.len = block.Transactions.length
      ∧ rec.Transactions.toList.length = block.Transactions.length
      ∧ (block.Transactions.length = 0 → rec.Transactions.toList = [])
      ∧ ∀ (i : Nat) (hi : i < block.Transactions.length),
          ∃ frm o, signer.Sender (block.Transactions.get ⟨i, hi⟩) = Except.ok frm
            ∧ rec.Transactions.toList[i]? = some o
            ∧ o = RedisDB.WriteAll.out d frm (block.Transactions.get ⟨i, hi⟩)
            ∧ o = WriteStream.WriteAll.out d frm (block.Transactions.get ⟨i, hi⟩)
            ∧ o.Hash = (block.Transactions.get ⟨i, hi⟩).Hash.Hex
            ∧ o.From = frm.Hex d.keccak := by
  obtain ⟨rec, hR, hW, _, _, hlen, hnil, hget⟩ := outStruct_ok d signer block receipts h
  refine ⟨rec, hR, hW, hlen, ?_, ?_, ?_⟩
  · rw [← hlen]; cases rec.Transactions <;> rfl
  · intro h0; rw [hnil h0]; rfl
  · intro i hi
    obtain ⟨frm, hfrm, ho⟩ := hget i hi
    have hf := RedisDB.out_fields d frm (block.Transactions.get ⟨i, hi⟩)
    exact ⟨frm, _, hfrm, ho, rfl, rfl, hf.2.2.2.2.2.2.1, hf.2.2.2.2.2.2.2.2.2⟩

/-- C2, at a block of two transactions. -/
theorem WriteAll_transactions_count_and_order_witness :
    (∀ t ∈ (sampleBlock 0 [sampleTransfer, sampleCreation]).Transactions,
        ∃ a, sampleSigner.Sender t = Except.ok a)
    ∧ ∃ rec, RedisDB.WriteAll.outStruct sampleDeps sampleSigner
          (sampleBlock 0 [sampleTransfer, sampleCreation]) none = Proc.ret rec
      ∧ WriteStream.WriteAll.outStruct sampleDeps sampleSigner
          (sampleBlock 0 [sampleTransfer, sampleCreation]) none = Proc.ret rec
      ∧ rec.Transactions.len = (sampleBlock 0 [sampleTransfer, sampleCreation]).Transactions.length
      ∧ rec.Transactions.toList.length
          = (sampleBlock 0 [sampleTransfer, sampleCreation]).Transactions.length
      ∧ ((sampleBlock 0 [sampleTransfer, sampleCreation]).Transactions.length = 0 →
          rec.Transactions.toList = [])
      ∧ ∀ (i : Nat)
          (hi : i < (sampleBlock 0 [sampleTransfer, sampleCreation]).Transactions.length),
          ∃ frm o,
            sampleSigner.Sender
                ((sampleBlock 0 [sampleTransfer, sampleCreation]).Transactions.get ⟨i, hi⟩)
              = Except.ok frm
            ∧ rec.Transactions.toList[i]? = some o
            ∧ o = RedisDB.WriteAll.out sampleDeps frm
                ((sampleBlock 0 [sampleTransfer, sampleCreation]).Transactions.get ⟨i, hi⟩)
            ∧ o = WriteStream.WriteAll.out sampleDeps frm
                ((sampleBlock 0 [sampleTransfer, sampleCreation]).Transactions.get ⟨i, hi⟩)
            ∧ o.Hash
                = ((sampleBlock 0 [sampleTransfer, sampleCreation]).Transactions.get ⟨i, hi⟩).Hash.Hex
            ∧ o.From = frm.Hex sampleDeps.keccak :=
  have hyp : ∀ t ∈ (sampleBlock 0 [sampleTransfer, sampleCreation]).Transactions,
      ∃ a, sampleSigner.Sender t = Except.ok a := fun _ _ => ⟨sampleAddress 0xcd, rfl⟩
  ⟨hyp, WriteAll_transactions_count_and_order sampleDeps sampleSigner
    (sampleBlock 0 [sampleTransfer, sampleCreation]) none hyp⟩

/-- C3. Recipient rule: in the record that both writers build for a block whose
senders are all recoverable, the field `To` of entry `i` is the empty string
exactly when transaction `i` has no recipient, and is the checksummed hex
string of the recipient when there is one. -/
theorem WriteAll_recipient_rule (d : Deps) (signer : Signer) (block : Block)
    (receipts : GoSlice Receipt)
    (h : ∀ t ∈ block.Transactions, ∃ a, signer.Sender t = Except.ok a) :
    ∃ rec, RedisDB.WriteAll.outStruct d signer block receipts = Proc.ret rec
      ∧ WriteStream.WriteAll.outStruct d signer block receipts = Proc.ret rec
      ∧ ∀ (i : Nat) (hi : i < block.Transactions.length),
          ∃ o, rec.Transactions.toList[i]? = some o
            ∧ (o.To = "" ↔ (block.Transactions.get ⟨i, hi⟩).To = none)
            ∧ ∀ a, (block.Transactions.get ⟨i, hi⟩).To = some a → o.To = a.Hex d.keccak := by
  obtain ⟨rec, hR, hW, _, _, _, _, hget⟩ := outStruct_ok d signer block receipts h
  refine ⟨rec, hR, hW, ?_⟩
  intro i hi
  obtain ⟨frm, _, ho⟩ := hget i hi
  have hto := RedisDB.out_To d frm (block.Transactions.get ⟨i, hi⟩)
  refine ⟨_, ho, ?_, ?_⟩
  · rw [hto]
    cases (block.Transactions.get ⟨i, hi⟩).To with
    | none => simp
    | some a => simpa using Address.Hex_ne_empty d.keccak a
  · intro a ha
    rw [hto, ha]

/-- C3, at a block with a transfer and a contract creation. -/
theorem WriteAll_recipient_rule_witness :
    (∀ t ∈ (sampleBlock 0 [sampleTransfer, sampleCreation]).Transactions,
        ∃ a, sampleSigner.Sender t = Except.ok a)
    ∧ ∃ rec, RedisDB.WriteAll.outStruct sampleDeps sampleSigner
          (sampleBlock 0 [sampleTransfer, sampleCreation]) none = Proc.ret rec
      ∧ WriteStream.WriteAll.outStruct sampleDeps sampleSigner
          (sampleBlock 0 [sampleTransfer, sampleCreation]) none = Proc.ret rec
      ∧ ∀ (i : Nat)
          (hi : i < (sampleBlock 0 [sampleTransfer, sampleCreation]).Transactions.length),
          ∃ o, rec.Transactions.toList[i]? = some o
            ∧ (o.To = "" ↔
                ((sampleBlock 0 [sampleTransfer, sampleCreation]).Transactions.get ⟨i, hi⟩).To
                  = none)
            ∧ ∀ a,
                ((sampleBlock 0 [sampleTransfer, sampleCreation]).Transactions.get ⟨i, hi⟩).To
                  = some a → o.To = a.Hex sampleDeps.keccak :=
  have hyp : ∀ t ∈ (sampleBlock 0 [sampleTransfer, sampleCreation]).Transactions,
      ∃ a, sampleSigner.Sender t = Except.ok a := fun _ _ => ⟨sampleAddress 0xcd, rfl⟩
  ⟨hyp, WriteAll_recipient_rule sampleDeps sampleSigner
    (sampleBlock 0 [sampleTransfer, sampleCreation]) none hyp⟩

/-- C4. Verbatim field extraction: in the record that both writers build for a
block whose senders are all recoverable, entry `i` carries the type, nonce, gas
limit, gas price, gas fee cap, value, input and size of transaction `i`
unchanged (the three big integers as integers of any size), its hash as the hex
string of the transaction hash, and as sender the hex string of the recovered
address, which is not empty. -/
theorem WriteAll_fields_verbatim (d : Deps) (signer : Signer) (block : Block)
    (receipts : GoSlice Receipt)
    (h : ∀ t ∈ block.Transactions, ∃ a, signer.Sender t = Except.ok a) :
    ∃ rec, RedisDB.WriteAll.outStruct d signer block receipts = Proc.ret rec
      ∧ WriteStream.WriteAll.outStruct d signer block receipts = Proc.ret rec
      ∧ ∀ (i : Nat) (hi : i < block.Transactions.length),
          ∃ frm o, signer.Sender (block.Transactions.get ⟨i, hi⟩) = Except.ok frm
            ∧ rec.Transactions.toList[i]? = some o
            ∧ o.Typ = (block.Transactions.get ⟨i, hi⟩).Typ
            ∧ o.Nonce = (block.Transactions.get ⟨i, hi⟩).Nonce
            ∧ o.Gas = (block.Transactions.get ⟨i, hi⟩).Gas
            ∧ o.GasPrice = some (block.Transactions.get ⟨i, hi⟩).GasPrice
            ∧ o.GasFeeCap = some (block.Transactions.get ⟨i, hi⟩).GasFeeCap
            ∧ o.Value = some (block.Transactions.get ⟨i, hi⟩).Value
            ∧ o.Hash = (block.Transactions.get ⟨i, hi⟩).Hash.Hex
            ∧ o.Input = (block.Transactions.get ⟨i, hi⟩).Data
            ∧ o.Size = (block.Transactions.get ⟨i, hi⟩).Size
            ∧ o.From = frm.Hex d.keccak
            ∧ o.From ≠ "" := by
  obtain ⟨rec, hR, hW, _, _, _, _, hget⟩ := outStruct_ok d signer block receipts h
  refine ⟨rec, hR, hW, ?_⟩
  intro i hi
  obtain ⟨frm, hfrm, ho⟩ := hget i hi
  have hne := Address.Hex_ne_empty d.keccak frm
  obtain ⟨h1, h2, h3, h4, h5, h6, h7, h8, h9, h10⟩ :=
    RedisDB.out_fields d frm (block.Transactions.get ⟨i, hi⟩)
  exact ⟨frm, _, hfrm, ho, h1, h2, h3, h4, h5, h6, h7, h8, h9, h10, by rw [h10]; exact hne⟩

/-- C4, at a block whose transaction moves one ether. -/
theorem WriteAll_fields_verbatim_witness :
    (∀ t ∈ (sampleBlock 0 [sampleTransfer]).Transactions,
        ∃ a, sampleSigner.Sender t = Except.ok a)
    ∧ ∃ rec, RedisDB.WriteAll.outStruct sampleDeps sampleSigner
          (sampleBlock 0 [sampleTransfer]) none = Proc.ret rec
      ∧ WriteStream.WriteAll.outStruct sampleDeps sampleSigner
          (sampleBlock 0 [sampleTransfer]) none = Proc.ret rec
      ∧ ∀ (i : Nat) (hi : i < (sampleBlock 0 [sampleTransfer]).Transactions.length),
          ∃ frm o,
            sampleSigner.Sender ((sampleBlock 0 [sampleTransfer]).Transactions.get ⟨i, hi⟩)
              = Except.ok frm
            ∧ rec.Transactions.toList[i]? = some o
            ∧ o.Typ = ((sampleBlock 0 [sampleTransfer]).Transactions.get ⟨i, hi⟩).Typ
            ∧ o.Nonce = ((sampleBlock 0 [sampleTransfer]).Transactions.get ⟨i, hi⟩).Nonce
            ∧ o.Gas = ((sampleBlock 0 [sampleTransfer]).Transactions.get ⟨i, hi⟩).Gas
            ∧ o.GasPrice
                = some ((sampleBlock 0 [sampleTransfer]).Transactions.get ⟨i, hi⟩).GasPrice
            ∧ o.GasFeeCap
                = some ((sampleBlock 0 [sampleTransfer]).Transactions.get ⟨i, hi⟩).GasFeeCap
            ∧ o.Value = some ((sampleBlock 0 [sampleTransfer]).Transactions.get ⟨i, hi⟩).Value
            ∧ o.Hash = ((sampleBlock 0 [sampleTransfer]).Transactions.get ⟨i, hi⟩).Hash.Hex
            ∧ o.Input = ((sampleBlock 0 [sampleTransfer]).Transactions.get ⟨i, hi⟩).Data
            ∧ o.Size = ((sampleBlock 0 [sampleTransfer]).Transactions.get ⟨i, hi⟩).Size
            ∧ o.From = frm.Hex sampleDeps.keccak
            ∧ o.From ≠ "" :=
  have hyp : ∀ t ∈ (sampleBlock 0 [sampleTransfer]).Transactions,
      ∃ a, sampleSigner.Sender t = Except.ok a := fun _ _ => ⟨sampleAddress 0xcd, rfl⟩
  ⟨hyp, WriteAll_fields_verbatim sampleDeps sampleSigner (sampleBlock 0 [sampleTransfer]) none hyp⟩

/-- C6. Receipts pass-through: for a block whose senders are all recoverable
(with or without transactions) and any input receipts, the receipts of the
record that both writers build are the input receipts themselves: the same
slice, with the same elements in the same order. -/
theorem WriteAll_receipts_pass_through (d : Deps) (signer : Signer) (block : Block)
    (receipts : GoSlice Receipt)
    (h : ∀ t ∈ block.Transactions, ∃ a, signer.Sender t = Except.ok a) :
    ∃ rec, RedisDB.WriteAll.outStruct d signer block receipts = Proc.ret rec
      ∧ WriteStream.WriteAll.outStruct d signer block receipts = Proc.ret rec
      ∧ rec.Receipts = receipts
      ∧ rec.Receipts.toList = receipts.toList
      ∧ rec.Receipts.len = receipts.len := by
  obtain ⟨rec, hR, hW, hrc, _⟩ := outStruct_ok d signer block receipts h
  exact ⟨rec, hR, hW, hrc, by rw [hrc], by rw [hrc]⟩

/-- C6, at a block without transactions that comes with two receipts. -/
theorem WriteAll_receipts_pass_through_witness :
    (∀ t ∈ (sampleBlock 0 []).Transactions, ∃ a, sampleSigner.Sender t = Except.ok a)
    ∧ ∃ rec, RedisDB.WriteAll.outStruct sampleDeps sampleSigner (sampleBlock 0 [])
          (some [sampleReceipt 21000, sampleReceipt 42000]) = Proc.ret rec
      ∧ WriteStream.WriteAll.outStruct sampleDeps sampleSigner (sampleBlock 0 [])
          (some [sampleReceipt 21000, sampleReceipt 42000]) = Proc.ret rec
      ∧ rec.Receipts = some [sampleReceipt 21000, sampleReceipt 42000]
      ∧ rec.Receipts.toList
          = GoSlice.toList (some [sampleReceipt 21000, sampleReceipt 42000])
      ∧ rec.Receipts.len = GoSlice.len (some [sampleReceipt 21000, sampleReceipt 42000]) :=
  have hyp : ∀ t ∈ (sampleBlock 0 []).Transactions,
      ∃ a, sampleSigner.Sender t = Except.ok a := fun _ _ => ⟨sampleAddress 0xcd, rfl⟩
  ⟨hyp, WriteAll_receipts_pass_through sampleDeps sampleSigner (sampleBlock 0 [])
    (some [sampleReceipt 21000, sampleReceipt 42000]) hyp⟩

/-- C5, as stated, fails: with a transport that is down, `WriteAll` of either
writer makes its call, gets the error, writes one log line (a warning for
`RedisDB`, an error line for `WriteStream`) and returns to its caller in the
normal way (`result = some ()`); the functions have no return value, so the
caller sees the same as after a success. -/
theorem WriteAll_publish_failure_returns_normally :
    downRedis.client (blockXAddArgs [0x7b, 0x7d]) = Except.error "connection refused"
    ∧ RedisDB.WriteAll sampleDeps downRedis sampleSigner (sampleBlock 0 []) none
        = { trace := [Effect.xadd (blockXAddArgs [0x7b, 0x7d]),
                      Effect.log Lvl.Warn "redis error"
                        [("err", LogValue.err "connection refused")]]
            result := some () }
    ∧ (RedisDB.WriteAll sampleDeps downRedis sampleSigner (sampleBlock 0 []) none).result
        = (RedisDB.WriteAll sampleDeps sampleRedis sampleSigner (sampleBlock 0 []) none).result
    ∧ downStream.topic { Data := [0x7b, 0x7d] } = Except.error "unavailable"
    ∧ WriteStream.WriteAll sampleDeps downStream sampleSigner (sampleBlock 0 []) none
        = { trace := [Effect.publish { Data := [0x7b, 0x7d] },
                      Effect.log Lvl.Error "Get err" [("err", LogValue.err "unavailable")]]
            result := some () }
    ∧ (WriteStream.WriteAll sampleDeps downStream sampleSigner (sampleBlock 0 []) none).result
        = (WriteStream.WriteAll sampleDeps sampleStream sampleSigner (sampleBlock 0 []) none).result :=
  ⟨rfl, rfl, rfl, rfl, rfl, rfl⟩

/-- C5, amended. For a block whose record is built and encoded, a failure of
the transport call is logged and not passed on: `RedisDB.WriteAll` is the
append followed by one warning line that carries the error, `WriteStream.WriteAll`
is the publish followed by one error line that carries the error,
neither line names the block, and both functions return normally. -/
theorem WriteAll_publish_failure_logged (d : Deps) (r : RedisDB) (w : WriteStream)
    (signer : Signer) (block : Block) (receipts : GoSlice Receipt) (rec : BlockOut)
    (bJson : List Byte) (errR errW : GoError)
    (hrec : RedisDB.WriteAll.outStruct d signer block receipts = Proc.ret rec)
    (henc : d.jsonMarshal rec = Except.ok bJson)
    (hdownR : r.client (blockXAddArgs bJson) = Except.error errR)
    (hdownW : w.topic { Data := bJson } = Except.error errW) :
    RedisDB.WriteAll d r signer block receipts
        = { trace := [Effect.xadd (blockXAddArgs bJson),
                      Effect.log Lvl.Warn "redis error" [("err", LogValue.err errR)]]
            result := some () }
    ∧ WriteStream.WriteAll d w signer block receipts
        = { trace := [Effect.publish { Data := bJson },
                      Effect.log Lvl.Error "Get err" [("err", LogValue.err errW)]]
            result := some () } := by
  have hrecW : WriteStream.WriteAll.outStruct d signer block receipts = Proc.ret rec := by
    rw [WriteStream.outStruct_eq]; exact hrec
  constructor
  · rw [redis_WriteAll_of_ret d r signer block receipts rec hrec]
    simp only [henc, hdownR]
  · rw [stream_WriteAll_of_ret d w signer block receipts rec hrecW]
    simp only [henc, hdownW]

/-- C5 amended, at an empty block and transports that are down. -/
theorem WriteAll_publish_failure_logged_witness :
    RedisDB.WriteAll sampleDeps downRedis sampleSigner (sampleBlock 0 []) none
        = { trace := [Effect.xadd (blockXAddArgs [0x7b, 0x7d]),
                      Effect.log Lvl.Warn "redis error"
                        [("err", LogValue.err "connection refused")]]
            result := some () }
    ∧ WriteStream.WriteAll sampleDeps downStream sampleSigner (sampleBlock 0 []) none
        = { trace := [Effect.publish { Data := [0x7b, 0x7d] },
                      Effect.log Lvl.Error "Get err" [("err", LogValue.err "unavailable")]]
            result := some () } :=
  WriteAll_publish_failure_logged sampleDeps downRedis downStream sampleSigner (sampleBlock 0 [])
    none _ [0x7b, 0x7d] "connection refused" "unavailable" rfl rfl rfl rfl

/-- C7, as stated, fails: for a block with one transaction and an input of two
receipts, both writers build a record with one transaction and two receipts;
both sequences are non-empty and their lengths differ. -/
theorem WriteAll_receipt_count_not_enforced :
    (sampleBlock 0 [sampleTransfer]).Transactions.length = 1
    ∧ (RedisDB.WriteAll.outStruct sampleDeps sampleSigner (sampleBlock 0 [sampleTransfer])
          (some [sampleReceipt 21000, sampleReceipt 42000])).result.map
        (fun rec => (rec.Transactions.len, rec.Receipts.len)) = some (1, 2)
    ∧ (WriteStream.WriteAll.outStruct sampleDeps sampleSigner (sampleBlock 0 [sampleTransfer])
          (some [sampleReceipt 21000, sampleReceipt 42000])).result.map
        (fun rec => (rec.Transactions.len, rec.Receipts.len)) = some (1, 2) :=
  ⟨rfl, rfl, rfl⟩

/-- C7, amended. For a block with N transactions whose senders are all
recoverable and any input receipts, the record that both writers build has
exactly N transactions and as many receipts as the input has; so the two
lengths are equal exactly when the caller passed N receipts. -/
theorem WriteAll_receipt_count_from_input (d : Deps) (signer : Signer) (block : Block)
    (receipts : GoSlice Receipt)
    (h : ∀ t ∈ block.Transactions, ∃ a, signer.Sender t = Except.ok a) :
    ∃ rec, RedisDB.WriteAll.outStruct d signer block receipts = Proc.ret rec
      ∧ WriteStream.WriteAll.outStruct d signer block receipts = Proc.ret rec
      ∧ rec.Transactions.len = block.Transactions.length
      ∧ rec.Receipts.len = receipts.len
      ∧ (rec.Transactions.len = rec.Receipts.len ↔ receipts.len = block.Transactions.length) := by
  obtain ⟨rec, hR, hW, hrc, _, hlen, _⟩ := outStruct_ok d signer block receipts h
  refine ⟨rec, hR, hW, hlen, by rw [hrc], ?_⟩
  rw [hlen, hrc]
  exact eq_comm

/-- C7 amended, at a block with one transaction and one receipt. -/
theorem WriteAll_receipt_count_from_input_witness :
    (∀ t ∈ (sampleBlock 0 [sampleTransfer]).Transactions,
        ∃ a, sampleSigner.Sender t = Except.ok a)
    ∧ ∃ rec, RedisDB.WriteAll.outStruct sampleDeps sampleSigner (sampleBlock 0 [sampleTransfer])
          (some [sampleReceipt 21000]) = Proc.ret rec
      ∧ WriteStream.WriteAll.outStruct sampleDeps sampleSigner (sampleBlock 0 [sampleTransfer])
          (some [sampleReceipt 21000]) = Proc.ret rec
      ∧ rec.Transactions.len = (sampleBlock 0 [sampleTransfer]).Transactions.length
      ∧ rec.Receipts.len = GoSlice.len (some [sampleReceipt 21000])
      ∧ (rec.Transactions.len = rec.Receipts.len ↔
          GoSlice.len (some [sampleReceipt 21000])
            = (sampleBlock 0 [sampleTransfer]).Transactions.length) :=
  have hyp : ∀ t ∈ (sampleBlock 0 [sampleTransfer]).Transactions,
      ∃ a, sampleSigner.Sender t = Except.ok a := fun _ _ => ⟨sampleAddress 0xcd, rfl⟩
  ⟨hyp, WriteAll_receipt_count_from_input sampleDeps sampleSigner (sampleBlock 0 [sampleTransfer])
    (some [sampleReceipt 21000]) hyp⟩

/-- C8, as stated, fails.  For a block at Unix time 0 both writers build a
record whose time is in the location `Local`, not `UTC`: on a host one hour
east of UTC its wall clock reads 3600, on a host in UTC it reads 0, while the
same instant taken to UTC reads 0 on both.  And for a block whose `uint64` time
is `2^63` the seconds of the time of the record are `-2^63`, not `2^63`. -/
theorem WriteAll_time_is_local :
    (RedisDB.WriteAll.outStruct sampleDeps sampleSigner (sampleBlock 0 []) none).result.map
        (fun rec => (rec.Time.loc, rec.Time.wallSeconds 3600, rec.Time.wallSeconds 0,
          rec.Time.UTC.wallSeconds 3600, rec.Time.UTC.wallSeconds 0))
      = some (Location.Local, 3600, 0, 0, 0)
    ∧ (WriteStream.WriteAll.outStruct sampleDeps sampleSigner (sampleBlock 0 []) none).result.map
        (fun rec => (rec.Time.loc, rec.Time.wallSeconds 3600, rec.Time.wallSeconds 0,
          rec.Time.UTC.wallSeconds 3600, rec.Time.UTC.wallSeconds 0))
      = some (Location.Local, 3600, 0, 0, 0)
    ∧ Location.Local ≠ Location.UTC
    ∧ (sampleBlock (2 ^ 63) []).Time = 2 ^ 63
    ∧ (RedisDB.WriteAll.outStruct sampleDeps sampleSigner (sampleBlock (2 ^ 63) [])
          none).result.map (fun rec => rec.Time.sec) = some (-(2 ^ 63))
    ∧ (WriteStream.WriteAll.outStruct sampleDeps sampleSigner (sampleBlock (2 ^ 63) [])
          none).result.map (fun rec => rec.Time.sec) = some (-(2 ^ 63)) :=
  ⟨rfl, rfl, by decide, rfl, by decide, by decide⟩

/-- C8, amended. For a block whose senders are all recoverable and whose time
is below `2^63`, the time of the record that both writers build is the instant
`block.Time()` seconds after the Unix epoch with zero nanoseconds, in the
location `Local`: its wall clock is shifted by the offset of the zone of the host. -/
theorem WriteAll_time_local_instant (d : Deps) (signer : Signer) (block : Block)
    (receipts : GoSlice Receipt)
    (h : ∀ t ∈ block.Transactions, ∃ a, signer.Sender t = Except.ok a)
    (ht : block.Time < 2 ^ 63) :
    ∃ rec, RedisDB.WriteAll.outStruct d signer block receipts = Proc.ret rec
      ∧ WriteStream.WriteAll.outStruct d signer block receipts = Proc.ret rec
      ∧ rec.Time = { sec := (block.Time : Int), nsec := 0, loc := Location.Local }
      ∧ ∀ hostOffset : Int, rec.Time.wallSeconds hostOffset = (block.Time : Int) + hostOffset := by
  obtain ⟨rec, hR, hW, _, htime, _⟩ := outStruct_ok d signer block receipts h
  have hsec : int64 block.Time = (block.Time : Int) := by
    have h64 : block.Time % 2 ^ 64 = block.Time := Nat.mod_eq_of_lt (by omega)
    simp only [int64, h64, ht, if_true]
  refine ⟨rec, hR, hW, ?_, ?_⟩
  · rw [htime, hsec]; rfl
  · intro hostOffset
    rw [htime, hsec]; rfl

/-- C8 amended, at a block of 2021. -/
theorem WriteAll_time_local_instant_witness :
    (∀ t ∈ (sampleBlock 1628166822 [sampleTransfer]).Transactions,
        ∃ a, sampleSigner.Sender t = Except.ok a)
    ∧ (sampleBlock 1628166822 [sampleTransfer]).Time < 2 ^ 63
    ∧ ∃ rec, RedisDB.WriteAll.outStruct sampleDeps sampleSigner
          (sampleBlock 1628166822 [sampleTransfer]) none = Proc.ret rec
      ∧ WriteStream.WriteAll.outStruct sampleDeps sampleSigner
          (sampleBlock 1628166822 [sampleTransfer]) none = Proc.ret rec
      ∧ rec.Time = { sec := ((sampleBlock 1628166822 [sampleTransfer]).Time : Int), nsec := 0,
                     loc := Location.Local }
      ∧ ∀ hostOffset : Int, rec.Time.wallSeconds hostOffset
          = ((sampleBlock 1628166822 [sampleTransfer]).Time : Int) + hostOffset :=
  have hyp : ∀ t ∈ (sampleBlock 1628166822 [sampleTransfer]).Transactions,
      ∃ a, sampleSigner.Sender t = Except.ok a := fun _ _ => ⟨sampleAddress 0xcd, rfl⟩
  have hlt : (sampleBlock 1628166822 [sampleTransfer]).Time < 2 ^ 63 := by
    show (1628166822 : Nat) < 2 ^ 63
    norm_num
  ⟨hyp, hlt, WriteAll_time_local_instant sampleDeps sampleSigner
    (sampleBlock 1628166822 [sampleTransfer]) none hyp hlt⟩

/-- C9. Code append: for every hash and every bytecode, the empty one
included, `RedisDB.WriteCode` makes exactly one append, to the stream
`block-code`, with both length limits at zero (no trimming is asked for) and an
entry whose keys are `hash`, with the hex string of the hash, and `data`, with
the bytecode as it came.  When the client acknowledges the append, that append
is the whole run and the function returns; when the client answers with an
error, the run ends in the fatal branch. -/
theorem WriteCode_appends_once (r : RedisDB) (hash : Hash) (code : List Byte) :
    RedisDB.WriteCode r hash code
      = (match r.client
            { Stream := "block-code", MaxLen := 0, MaxLenApprox := 0, ID := ""
              Values := [("hash", XValue.str hash.Hex), ("data", XValue.bytes code)] } with
        | Except.ok _ =>
          { trace := [Effect.xadd
              { Stream := "block-code", MaxLen := 0, MaxLenApprox := 0, ID := ""
                Values := [("hash", XValue.str hash.Hex), ("data", XValue.bytes code)] }]
            result := some () }
        | Except.error err =>
          { trace := [Effect.xadd
              { Stream := "block-code", MaxLen := 0, MaxLenApprox := 0, ID := ""
                Values := [("hash", XValue.str hash.Hex), ("data", XValue.bytes code)] },
              Effect.log Lvl.Crit "Failed to store contract code" [("err", LogValue.err err)]]
            result := none })
    ∧ (RedisDB.WriteCode r hash code).trace.filter Effect.isAppend
        = [Effect.xadd
            { Stream := "block-code", MaxLen := 0, MaxLenApprox := 0, ID := ""
              Values := [("hash", XValue.str hash.Hex), ("data", XValue.bytes code)] }]
    ∧ XAddArgs.trims
        { Stream := "block-code", MaxLen := 0, MaxLenApprox := 0, ID := ""
          Values := [("hash", XValue.str hash.Hex), ("data", XValue.bytes code)] } = false
    ∧ RedisDB.WriteCode r hash []
      = (match r.client
            { Stream := "block-code", MaxLen := 0, MaxLenApprox := 0, ID := ""
              Values := [("hash", XValue.str hash.Hex), ("data", XValue.bytes [])] } with
        | Except.ok _ =>
          { trace := [Effect.xadd
              { Stream := "block-code", MaxLen := 0, MaxLenApprox := 0, ID := ""
                Values := [("hash", XValue.str hash.Hex), ("data", XValue.bytes [])] }]
            result := some () }
        | Except.error err =>
          { trace := [Effect.xadd
              { Stream := "block-code", MaxLen := 0, MaxLenApprox := 0, ID := ""
                Values := [("hash", XValue.str hash.Hex), ("data", XValue.bytes [])] },
              Effect.log Lvl.Crit "Failed to store contract code" [("err", LogValue.err err)]]
            result := none }) := by
  have key : ∀ c : List Byte, RedisDB.WriteCode r hash c
      = (match r.client
            { Stream := "block-code", MaxLen := 0, MaxLenApprox := 0, ID := ""
              Values := [("hash", XValue.str hash.Hex), ("data", XValue.bytes c)] } with
        | Except.ok _ =>
          { trace := [Effect.xadd
              { Stream := "block-code", MaxLen := 0, MaxLenApprox := 0, ID := ""
                Values := [("hash", XValue.str hash.Hex), ("data", XValue.bytes c)] }]
            result := some () }
        | Except.error err =>
          { trace := [Effect.xadd
              { Stream := "block-code", MaxLen := 0, MaxLenApprox := 0, ID := ""
                Values := [("hash", XValue.str hash.Hex), ("data", XValue.bytes c)] },
              Effect.log Lvl.Crit "Failed to store contract code" [("err", LogValue.err err)]]
            result := none }) := by
    intro c
    simp only [RedisDB.WriteCode, Hash.String]
    cases hc : r.client
        { Stream := "block-code", MaxLen := 0, MaxLenApprox := 0, ID := ""
          Values := [("hash", XValue.str hash.Hex), ("data", XValue.bytes c)] } with
    | error err => simp [Proc.bind, RedisDB.XAdd, log.Crit, hc]
    | ok id => simp [Proc.bind, RedisDB.XAdd, Proc.ret, hc]
  refine ⟨key code, ?_, rfl, key []⟩
  rw [key code]
  cases r.client
      { Stream := "block-code", MaxLen := 0, MaxLenApprox := 0, ID := ""
        Values := [("hash", XValue.str hash.Hex), ("data", XValue.bytes code)] } <;>
    simp [Effect.isAppend]

/-- C10. Transport-independent record: for every signer, block and receipts
the two writers build the same record, or end in the same fatal branch (the
record-building parts of the two `WriteAll` are equal as runs); the bytes that
`RedisDB.WriteAll` appends are the bytes that `WriteStream.WriteAll` publishes;
and one of them is the fatal branch of a sender failure exactly when the other
is. -/
theorem WriteAll_record_transport_independent (d : Deps) (r : RedisDB) (w : WriteStream)
    (signer : Signer) (block : Block) (receipts : GoSlice Receipt) :
    RedisDB.WriteAll.outStruct d signer block receipts
        = WriteStream.WriteAll.outStruct d signer block receipts
    ∧ (∀ payload : List Byte,
        Effect.xadd (blockXAddArgs payload) ∈ (RedisDB.WriteAll d r signer block receipts).trace
          ↔ Effect.publish { Data := payload }
              ∈ (WriteStream.WriteAll d w signer block receipts).trace)
    ∧ (∀ ctx : List (String × LogValue),
        RedisDB.WriteAll d r signer block receipts = log.Crit "error in txn" ctx
          ↔ WriteStream.WriteAll d w signer block receipts = log.Crit "error in txn" ctx) := by
  refine ⟨(WriteStream.outStruct_eq d signer block receipts).symm, ?_, ?_⟩
  · intro payload
    rcases senders_ok_or_fail signer block.Transactions with hok | hfail
    · obtain ⟨rec, hR, hW, _⟩ := outStruct_ok d signer block receipts hok
      rw [redis_WriteAll_of_ret d r signer block receipts rec hR,
        stream_WriteAll_of_ret d w signer block receipts rec hW]
      cases d.jsonMarshal rec with
      | error err => simp [log.Crit]
      | ok bJson =>
        dsimp only
        cases r.client (blockXAddArgs bJson) <;> cases w.topic { Data := bJson } <;>
          simp [blockXAddArgs]
    · obtain ⟨_, t, e, _, _, _, _, hR, hW⟩ := outStruct_fail d signer block receipts hfail
      rw [redis_WriteAll_of_crit d r signer block receipts _ _ hR,
        stream_WriteAll_of_crit d w signer block receipts _ _ hW]
      simp [log.Crit]
  · intro ctx
    rcases senders_ok_or_fail signer block.Transactions with hok | hfail
    · obtain ⟨rec, hR, hW, _⟩ := outStruct_ok d signer block receipts hok
      rw [redis_WriteAll_of_ret d r signer block receipts rec hR,
        stream_WriteAll_of_ret d w signer block receipts rec hW]
      cases d.jsonMarshal rec with
      | error err => simp [log.Crit]
      | ok bJson =>
        dsimp only
        cases r.client (blockXAddArgs bJson) <;> cases w.topic { Data := bJson } <;>
          simp [log.Crit]
    · obtain ⟨_, t, e, _, _, _, _, hR, hW⟩ := outStruct_fail d signer block receipts hfail
      rw [redis_WriteAll_of_crit d r signer block receipts _ _ hR,
        stream_WriteAll_of_crit d w signer block receipts _ _ hW]

end Custom
